import Mathlib

/-!
Verification of the HealthKali disease-progression core
(`backend/core/progression/models.py`, class `ProgressionSimulator`).

The transition-matrix pipeline is embedded over the real numbers: Python
float literals become exact real literals, `math.log` becomes `Real.log`,
and Python `**` on floats becomes real exponentiation.  Dictionaries
keyed by disease state become functions out of the finite `State` type,
and dictionary mutation becomes construction of an updated function.
Randomness (`np.random.choice`) is threaded as an explicit sampling
oracle, and `raise ValueError` becomes the `Except.error` branch of an
`Except String` result.
-/

open scoped Classical

noncomputable section

namespace HealthKali

/-- Disease states, in the order the source lists them:
`["NED", "Local Recurrence", "Regional Recurrence", "Distant Metastasis", "Death"]`. -/
inductive State where
  | ned
  | localRec
  | regionalRec
  | distantMet
  | death
deriving DecidableEq

/-- All five states in source order (the iteration order of the row dicts). -/
def allStates : List State := [.ned, .localRec, .regionalRec, .distantMet, .death]

/-- A transition matrix: `P[from_state][to_state]`. -/
abbrev TMatrix := State → State → ℝ

/-- Sum of a row's values, `sum(transitions.values())`. -/
def rowSum (row : State → ℝ) : ℝ :=
  (allStates.map row).sum

/-- Sum of a row's values excluding state `s`,
`sum(row[t] for t in row if t != s)`. -/
def othersSum (row : State → ℝ) (s : State) : ℝ :=
  ((allStates.filter (fun t => t ≠ s)).map row).sum

/-- The base transition matrix literal `base_transition_probs` built inside
`_simulate_markov`. -/
def baseTransitionProbs : TMatrix := fun s t =>
  match s, t with
  | .ned, .ned => 0.997
  | .ned, .localRec => 0.0015
  | .ned, .regionalRec => 0.0008
  | .ned, .distantMet => 0.0005
  | .ned, .death => 0.0002
  | .localRec, .ned => 0.05
  | .localRec, .localRec => 0.93
  | .localRec, .regionalRec => 0.01
  | .localRec, .distantMet => 0.005
  | .localRec, .death => 0.005
  | .regionalRec, .ned => 0.02
  | .regionalRec, .localRec => 0.03
  | .regionalRec, .regionalRec => 0.92
  | .regionalRec, .distantMet => 0.02
  | .regionalRec, .death => 0.01
  | .distantMet, .ned => 0.001
  | .distantMet, .localRec => 0.002
  | .distantMet, .regionalRec => 0.007
  | .distantMet, .distantMet => 0.98
  | .distantMet, .death => 0.01
  | .death, .ned => 0.00
  | .death, .localRec => 0.00
  | .death, .regionalRec => 0.00
  | .death, .distantMet => 0.00
  | .death, .death => 1.00

/-- The canonical matrix exactly as the specification document words it:
"NED→{NED .997, Local .0015, Regional .0008, Distant .0005, Death .0002};
Local→{NED .05, Local .93, Regional .01, Distant .005, Death .005};
Regional→{NED .02, Local .03, Regional .92, Distant .02, Death .01};
Distant→{NED .001, Local .002, Regional .007, Distant .98, Death .01};
Death→{Death 1.0, all else 0}". -/
def specCanonicalMatrix : TMatrix := fun s t =>
  match s with
  | .ned =>
      match t with
      | .ned => 0.997 | .localRec => 0.0015 | .regionalRec => 0.0008
      | .distantMet => 0.0005 | .death => 0.0002
  | .localRec =>
      match t with
      | .ned => 0.05 | .localRec => 0.93 | .regionalRec => 0.01
      | .distantMet => 0.005 | .death => 0.005
  | .regionalRec =>
      match t with
      | .ned => 0.02 | .localRec => 0.03 | .regionalRec => 0.92
      | .distantMet => 0.02 | .death => 0.01
  | .distantMet =>
      match t with
      | .ned => 0.001 | .localRec => 0.002 | .regionalRec => 0.007
      | .distantMet => 0.98 | .death => 0.01
  | .death =>
      match t with
      | .death => 1.0 | _ => 0

/-- Row renormalization performed at the end of both adjustment functions:
`if abs(total - 1.0) > 1e-10: divide every entry by total`. -/
def renormRow (row : State → ℝ) : State → ℝ :=
  if |rowSum row - 1| > 1e-10 then fun t => row t / rowSum row else row

/-- The scalar `risk_modifier` computed in `_adjust_transition_probabilities`:
a product of a molecular-subtype factor, a grade factor and a
positive-nodes factor.  It is a product of rational literals, so it is
kept in `ℚ` (the value is identical to the Python float contract). -/
def riskModifier (molecularSubtype : String) (grade nodesPositive : ℤ) : ℚ :=
  let subtypeFactor : ℚ :=
    if molecularSubtype = "Triple Negative" then 1.2
    else if molecularSubtype = "HER2 Enriched" then 1.15
    else if molecularSubtype = "Luminal B HER2+" then 1.1
    else if molecularSubtype = "Luminal B HER2-" then 1.05
    else 1
  let gradeFactor : ℚ :=
    if grade = 3 then 1.15 else if grade = 1 then 0.9 else 1
  let nodesFactor : ℚ :=
    if nodesPositive > 3 then 1.2 else if nodesPositive > 0 then 1.1 else 1
  subtypeFactor * gradeFactor * nodesFactor

/-- The `adjustment_factor = math.log(risk_modifier + 0.3) / 2` computed
for every non-Death row in `_adjust_transition_probabilities` (it does
not depend on the row). -/
def adjustmentFactor (riskMod : ℚ) : ℝ :=
  Real.log ((riskMod : ℝ) + 0.3) / 2

/-- The `worse_states` list selected for each `from_state` in
`_adjust_transition_probabilities` (empty for `Death`). -/
def worseStates : State → List State
  | .ned => [.localRec, .regionalRec, .distantMet, .death]
  | .localRec => [.regionalRec, .distantMet, .death]
  | .regionalRec => [.distantMet, .death]
  | .distantMet => [.death]
  | .death => []

/-- The per-state `min_stay_prob` floor used by the risk adjustment
(the `else` branch, 0.90, is unreachable for non-Death rows but is in the
source). -/
def minStayProb : State → ℝ
  | .ned => 0.995
  | .localRec => 0.93
  | .regionalRec => 0.92
  | .distantMet => 0.97
  | .death => 0.90

/-- The risk edit of one non-Death row: lower the stay probability toward
its floor and hand the freed mass to the worse states (proportionally
when they carry positive mass, in equal shares otherwise). -/
def adjustRiskRow (adjustmentFactor : ℝ) (row : State → ℝ) (s : State) :
    State → ℝ :=
  let stayProb := row s
  let newStayProb := max (minStayProb s) (stayProb - stayProb * 0.02 * adjustmentFactor)
  let freedProb := stayProb - newStayProb
  let worse := worseStates s
  let worseSum := (worse.map row).sum
  fun t =>
    if t = s then newStayProb
    else if t ∈ worse then
      if worseSum > 0 then row t + freedProb * (row t / worseSum)
      else if freedProb > 0 ∧ worse ≠ [] then row t + freedProb / (worse.length : ℝ)
      else row t
    else row t

/-- `_adjust_transition_probabilities(base_probs, molecular_subtype, grade,
nodes_positive)`: apply the risk edit to every non-Death row, then
renormalize each row whose sum drifted beyond `1e-10`. -/
def adjustTransitionProbabilities (baseProbs : TMatrix)
    (molecularSubtype : String) (grade nodesPositive : ℤ) : TMatrix :=
  let factor : ℝ :=
    adjustmentFactor (riskModifier molecularSubtype grade nodesPositive)
  let adjusted : TMatrix := fun s =>
    if s = .death then baseProbs s
    else adjustRiskRow factor (baseProbs s) s
  fun s => renormRow (adjusted s)

/-- A treatment plan record; the core reads only
`treatment_plan.get('treatment_type', 'unknown')`. -/
structure TreatmentPlan where
  treatmentType : Option String

/-- The surgery edit of the NED row: move 90% of the local-recurrence mass
back onto NED. -/
def surgeryNedRow (row : State → ℝ) : State → ℝ :=
  let localReduction := row .localRec * 0.9
  fun t =>
    if t = .localRec then row .localRec - localReduction
    else if t = .ned then row .ned + localReduction
    else row t

/-- The surgery edit of the Local Recurrence row: set the NED entry to 0.7
and, when the other entries carry positive mass, rescale them onto the
remaining 0.3 by their relative weights. -/
def surgeryLocalRow (row : State → ℝ) : State → ℝ :=
  let remaining : ℝ := 0.3
  let totalOther := othersSum row .ned
  fun t =>
    if t = .ned then 0.7
    else if totalOther > 0 then row t / totalOther * remaining
    else row t

/-- The radiation edit of the NED row: move 85% of the local-recurrence
mass back onto NED. -/
def radiationNedRow (row : State → ℝ) : State → ℝ :=
  let localReduction := row .localRec * 0.85
  fun t =>
    if t = .localRec then row .localRec - localReduction
    else if t = .ned then row .ned + localReduction
    else row t

/-- The radiation edit of the Local Recurrence row: raise the NED entry to
0.15 when it is lower, scaling the other entries by `(1 - 0.15)` over
their sum (the source has no positive-sum guard here). -/
def radiationLocalRow (row : State → ℝ) : State → ℝ :=
  let nedIncrease := 0.15 - row .ned
  if nedIncrease > 0 then
    let totalOther := othersSum row .ned
    fun t =>
      if t = .ned then 0.15
      else row t * ((1 - 0.15) / totalOther)
  else row

/-- The chemotherapy / hormone / targeted edit of one row: raise the stay
probability by `min(cap, (1 - stay) * fraction)` and scale every other
entry by `(1 - stay_increase) / total_others` when the others carry
positive mass. -/
def stayBoostRow (cap fraction : ℝ) (row : State → ℝ) (s : State) :
    State → ℝ :=
  let stayIncrease := min cap ((1 - row s) * fraction)
  let totalOthers := othersSum row s
  fun t =>
    if t = s then row s + stayIncrease
    else if totalOthers > 0 then row t * ((1 - stayIncrease) / totalOthers)
    else row t

/-- `_adjust_for_treatment(base_probs, treatment_plan, molecular_subtype)`:
apply the treatment-specific structural edit to every non-Death row, then
renormalize each row whose sum drifted beyond `1e-10`.  (The efficacy
value the source computes from `molecular_subtype` is never used by the
matrix edits, so the subtype does not influence the result.) -/
def adjustForTreatment (baseProbs : TMatrix) (treatmentPlan : TreatmentPlan)
    (molecularSubtype : String) : TMatrix :=
  let treatmentType := treatmentPlan.treatmentType.getD "unknown"
  let adjusted : TMatrix := fun s =>
    if s = .death then baseProbs s
    else if treatmentType = "surgery" then
      if s = .ned then surgeryNedRow (baseProbs .ned)
      else if s = .localRec then surgeryLocalRow (baseProbs .localRec)
      else baseProbs s
    else if treatmentType = "radiation" then
      if s = .ned then radiationNedRow (baseProbs .ned)
      else if s = .localRec then radiationLocalRow (baseProbs .localRec)
      else baseProbs s
    else if treatmentType = "chemotherapy" then
      stayBoostRow 0.05 0.3 (baseProbs s) s
    else if treatmentType = "hormone_therapy" ∨ treatmentType = "targeted_therapy" then
      stayBoostRow 0.03 0.2 (baseProbs s) s
    else baseProbs s
  fun s => renormRow (adjusted s)

/-- Patient feature record.  Every field the core reads through
`patient_data.get(key, default)` is an `Option`, so that the source's
per-field defaulting is preserved; `'treatment_plan' in patient_data`
becomes `treatmentPlan.isSome`. -/
structure PatientData where
  age : Option ℚ
  tumorSize : Option ℚ
  grade : Option ℤ
  nodesPositive : Option ℤ
  erStatus : Option String
  prStatus : Option String
  her2Status : Option String
  molecularSubtype : Option String
  treatmentPlan : Option TreatmentPlan

/-- `_calculate_growth_rate(patient_data)`. -/
def calculateGrowthRate (patientData : PatientData) : ℝ :=
  let baseRate : ℝ := 0.03
  let grade := patientData.grade.getD 2
  let gradeFactor : ℝ := if grade = 1 then 0.7 else if grade = 3 then 1.5 else 1.0
  let subtype := patientData.molecularSubtype.getD "unknown"
  let subtypeFactor : ℝ :=
    if subtype = "Triple Negative" then 1.6
    else if subtype = "HER2 Enriched" then 1.4
    else 1.0
  baseRate * gradeFactor * subtypeFactor

/-- `_calculate_survival_probability(patient_data, months)`: a staging
heuristic anchored at fixed 5-year survivals, converted to a monthly rate
by `** (1/60)`, nudged by receptor / grade / age multipliers and raised
to the `months` power. -/
def calculateSurvivalProbability (patientData : PatientData) (months : ℕ) : ℝ :=
  let nodes := patientData.nodesPositive.getD 0
  let tumorSize := patientData.tumorSize.getD 20
  let grade := patientData.grade.getD 2
  let erStatus := patientData.erStatus.getD "positive"
  let prStatus := patientData.prStatus.getD "positive"
  let her2Status := patientData.her2Status.getD "negative"
  let base5yrSurvival : ℝ :=
    if nodes = 0 ∧ tumorSize ≤ 20 then 0.98
    else if nodes ≤ 3 ∧ tumorSize ≤ 50 then 0.90
    else if nodes ≤ 9 ∨ tumorSize ≤ 70 then 0.72
    else 0.30
  let monthlySurvival := base5yrSurvival ^ ((1 : ℝ) / 60)
  let m1 := if erStatus = "positive" ∨ prStatus = "positive"
    then monthlySurvival * 1.002 else monthlySurvival
  let m2 := if her2Status = "positive" then m1 * 1.001 else m1
  let m3 := if grade = 3 then m2 * 0.998
    else if grade = 1 then m2 * 1.002 else m2
  let age := patientData.age.getD 60
  let m4 := if age > 70 then m3 * 0.999 else m3
  m4 ^ months

/-- `_simulate_exponential(patient_data, months)`: project tumor sizes
(computed but unused by the returned mapping) and return the five
heuristic state shares derived from the survival probability. -/
def simulateExponential (patientData : PatientData) (months : ℕ) :
    State → ℝ :=
  let growthRate := calculateGrowthRate patientData
  let initialTumorSize : ℝ := (patientData.tumorSize.getD 10 : ℚ)
  let sizes : List ℝ :=
    (List.range (months + 1)).map
      (fun month => initialTumorSize * Real.exp (growthRate * (month : ℝ)))
  let survivalProb := calculateSurvivalProbability patientData months
  fun s =>
    match s with
    | .ned => max 0.78 (survivalProb - 0.08)
    | .localRec => min 0.05 ((1 - survivalProb) * 0.3)
    | .regionalRec => min 0.03 ((1 - survivalProb) * 0.2)
    | .distantMet => min 0.05 ((1 - survivalProb) * 0.3)
    | .death => min 0.15 (1 - survivalProb)

/-- A sampling oracle standing for `np.random.choice`: given the
simulation index, the month index and the current row's categorical
distribution, it yields the sampled next state. -/
abbrev Sampler := ℕ → ℕ → (State → ℝ) → State

/-- The transition matrix built inside `_simulate_markov`: the base
literal matrix, risk-adjusted from the patient's subtype / grade / nodes
(with the source's defaults), then treatment-adjusted when a treatment
plan is present. -/
def markovTransitionProbs (patientData : PatientData) : TMatrix :=
  let transitionProbs :=
    adjustTransitionProbabilities baseTransitionProbs
      (patientData.molecularSubtype.getD "unknown")
      (patientData.grade.getD 2)
      (patientData.nodesPositive.getD 0)
  match patientData.treatmentPlan with
  | some plan =>
      adjustForTreatment transitionProbs plan
        (patientData.molecularSubtype.getD "unknown")
  | none => transitionProbs

/-- `_simulate_markov(patient_data, months, n_simulations)`: every trial
starts at NED, walks `months` sampled steps, and the final-state counts
are divided by `n_simulations`. -/
def simulateMarkov (sampler : Sampler) (patientData : PatientData)
    (months nSimulations : ℕ) : State → ℝ :=
  let transitionProbs := markovTransitionProbs patientData
  let finalState : ℕ → State := fun sim =>
    (List.range months).foldl
      (fun currentState month => sampler sim month (transitionProbs currentState))
      .ned
  fun s =>
    (((List.range nSimulations).filter (fun sim => finalState sim = s)).length : ℝ)
      / (nSimulations : ℝ)

/-- `simulate_progression(patient_data, months, n_simulations)` on a
simulator constructed with `simulation_type`: dispatch to the Markov or
exponential mode, and surface
`ValueError(f"Unknown simulation type: {simulation_type}")` otherwise. -/
def simulateProgression (sampler : Sampler) (simulationType : String)
    (patientData : PatientData) (months nSimulations : ℕ) :
    Except String (State → ℝ) :=
  if simulationType = "markov" then
    .ok (simulateMarkov sampler patientData months nSimulations)
  else if simulationType = "exponential" then
    .ok (simulateExponential patientData months)
  else
    .error ("Unknown simulation type: " ++ simulationType)

/-- A matrix is row-stochastic within tolerance `tol` when every row sums
to 1 within `tol` and every entry is nonnegative (the spec fixes
`tol = 1e-9`). -/
def rowStochasticWithin (M : TMatrix) (tol : ℝ) : Prop :=
  ∀ s, |rowSum (M s) - 1| ≤ tol ∧ ∀ t, 0 ≤ M s t

/-- A row-stochastic matrix whose Local Recurrence row puts probability
0.8 on NED (above the 0.7 that the surgery edit assigns); its other rows
are the base matrix rows. -/
def surgeryCounterexampleMatrix : TMatrix := fun s t =>
  match s, t with
  | .localRec, .ned => 0.8
  | .localRec, .localRec => 0.2
  | .localRec, .regionalRec => 0
  | .localRec, .distantMet => 0
  | .localRec, .death => 0
  | _, _ => baseTransitionProbs s t

/-! ## Row-sum evaluation lemmas -/

lemma rowSum_apply (row : State → ℝ) :
    rowSum row =
      row .ned + row .localRec + row .regionalRec + row .distantMet + row .death := by
  simp [rowSum, allStates]
  ring

lemma othersSum_ned (row : State → ℝ) :
    othersSum row .ned =
      row .localRec + row .regionalRec + row .distantMet + row .death := by
  simp [othersSum, allStates]
  ring

lemma othersSum_localRec (row : State → ℝ) :
    othersSum row .localRec =
      row .ned + row .regionalRec + row .distantMet + row .death := by
  simp [othersSum, allStates]
  ring

lemma othersSum_regionalRec (row : State → ℝ) :
    othersSum row .regionalRec =
      row .ned + row .localRec + row .distantMet + row .death := by
  simp [othersSum, allStates]
  ring

lemma othersSum_distantMet (row : State → ℝ) :
    othersSum row .distantMet =
      row .ned + row .localRec + row .regionalRec + row .death := by
  simp [othersSum, allStates]
  ring

lemma othersSum_death (row : State → ℝ) :
    othersSum row .death =
      row .ned + row .localRec + row .regionalRec + row .distantMet := by
  simp [othersSum, allStates]
  ring

lemma renormRow_of_sum_one (row : State → ℝ) (h : rowSum row = 1) :
    renormRow row = row := by
  unfold renormRow
  rw [h]
  norm_num

lemma rowSum_div (row : State → ℝ) (c : ℝ) :
    rowSum (fun t => row t / c) = rowSum row / c := by
  simp only [rowSum_apply]
  ring

/-- Renormalization of a nonnegative row with positive sum lands within
`1e-10` of sum one and keeps all entries nonnegative. -/
lemma renormRow_close (row : State → ℝ) (hn : ∀ t, 0 ≤ row t)
    (hp : 0 < rowSum row) :
    |rowSum (renormRow row) - 1| ≤ 1e-10 ∧ ∀ t, 0 ≤ renormRow row t := by
  unfold renormRow
  by_cases hc : |rowSum row - 1| > 1e-10
  · rw [if_pos hc]
    constructor
    · rw [rowSum_div, div_self (ne_of_gt hp)]
      norm_num
    · intro t
      exact div_nonneg (hn t) (le_of_lt hp)
  · rw [if_neg hc]
    exact ⟨le_of_not_lt hc, hn⟩

/-! ## Base matrix facts -/

lemma base_rowSum (s : State) : rowSum (baseTransitionProbs s) = 1 := by
  cases s <;> (rw [rowSum_apply]; norm_num [baseTransitionProbs])

lemma base_nonneg (s t : State) : 0 ≤ baseTransitionProbs s t := by
  cases s <;> cases t <;> norm_num [baseTransitionProbs]

/-! ## Risk modifier and adjustment factor bounds -/

lemma riskModifier_ge (st : String) (g n : ℤ) :
    (0.9 : ℚ) ≤ riskModifier st g n := by
  unfold riskModifier
  split_ifs <;> norm_num

lemma riskModifier_le (st : String) (g n : ℤ) :
    riskModifier st g n ≤ (1.656 : ℚ) := by
  unfold riskModifier
  split_ifs <;> norm_num

lemma rat_cast_le_of_le (a : ℚ) (x : ℝ) (q : ℚ) (ha : (a : ℝ) = x)
    (h : a ≤ q) : x ≤ (q : ℝ) := by
  rw [← ha]
  exact Rat.cast_le.mpr h

lemma rat_cast_ge_of_ge (a : ℚ) (x : ℝ) (q : ℚ) (ha : (a : ℝ) = x)
    (h : q ≤ a) : (q : ℝ) ≤ x := by
  rw [← ha]
  exact Rat.cast_le.mpr h

lemma adjustmentFactor_pos (q : ℚ) (h : (0.9 : ℚ) ≤ q) :
    0 < adjustmentFactor q := by
  have hq : (0.9 : ℝ) ≤ (q : ℝ) := rat_cast_le_of_le 0.9 0.9 q (by norm_num) h
  have hlog : 0 < Real.log ((q : ℝ) + 0.3) := Real.log_pos (by linarith)
  unfold adjustmentFactor
  linarith

lemma adjustmentFactor_lt_half (q : ℚ) (h9 : (0.9 : ℚ) ≤ q)
    (h16 : q ≤ (1.656 : ℚ)) : adjustmentFactor q < 1 / 2 := by
  have hq9 : (0.9 : ℝ) ≤ (q : ℝ) := rat_cast_le_of_le 0.9 0.9 q (by norm_num) h9
  have hq16 : (q : ℝ) ≤ 1.656 := rat_cast_ge_of_ge 1.656 1.656 q (by norm_num) h16
  have hxpos : (0 : ℝ) < (q : ℝ) + 0.3 := by linarith
  have hlt : Real.log ((q : ℝ) + 0.3) < 1 := by
    rw [Real.log_lt_iff_lt_exp hxpos]
    calc (q : ℝ) + 0.3 ≤ 1.956 := by linarith
    _ < 2.7182818283 := by norm_num
    _ < Real.exp 1 := Real.exp_one_gt_d9
  unfold adjustmentFactor
  linarith

lemma adjustmentFactor_mono (a b : ℚ) (ha : (0.9 : ℚ) ≤ a) (hab : a ≤ b) :
    adjustmentFactor a ≤ adjustmentFactor b := by
  have ha' : (0.9 : ℝ) ≤ (a : ℝ) := rat_cast_le_of_le 0.9 0.9 a (by norm_num) ha
  have hab' : (a : ℝ) ≤ (b : ℝ) := Rat.cast_le.mpr hab
  have hlog := Real.log_le_log
    (show (0 : ℝ) < (a : ℝ) + 0.3 by linarith)
    (show (a : ℝ) + 0.3 ≤ (b : ℝ) + 0.3 by linarith)
  unfold adjustmentFactor
  linarith

/-! ## Risk-edited rows of the base matrix -/

lemma risk_ned_expand (af : ℝ) :
    ∀ t, adjustRiskRow af (baseTransitionProbs .ned) .ned t =
      if t = .ned then max 0.995 (0.997 - 0.997 * 0.02 * af)
      else baseTransitionProbs .ned t +
        (0.997 - max 0.995 (0.997 - 0.997 * 0.02 * af)) *
          (baseTransitionProbs .ned t / 0.003) := by
  intro t
  cases t <;> norm_num [adjustRiskRow, baseTransitionProbs, minStayProb, worseStates]

lemma risk_localRec_expand (af : ℝ) :
    ∀ t, adjustRiskRow af (baseTransitionProbs .localRec) .localRec t =
      if t = .localRec then max 0.93 (0.93 - 0.93 * 0.02 * af)
      else if t = .regionalRec ∨ t = .distantMet ∨ t = .death then
        baseTransitionProbs .localRec t +
          (0.93 - max 0.93 (0.93 - 0.93 * 0.02 * af)) *
            (baseTransitionProbs .localRec t / 0.02)
      else baseTransitionProbs .localRec t := by
  intro t
  cases t <;> norm_num [adjustRiskRow, baseTransitionProbs, minStayProb, worseStates]

lemma risk_regionalRec_expand (af : ℝ) :
    ∀ t, adjustRiskRow af (baseTransitionProbs .regionalRec) .regionalRec t =
      if t = .regionalRec then max 0.92 (0.92 - 0.92 * 0.02 * af)
      else if t = .distantMet ∨ t = .death then
        baseTransitionProbs .regionalRec t +
          (0.92 - max 0.92 (0.92 - 0.92 * 0.02 * af)) *
            (baseTransitionProbs .regionalRec t / 0.03)
      else baseTransitionProbs .regionalRec t := by
  intro t
  cases t <;> norm_num [adjustRiskRow, baseTransitionProbs, minStayProb, worseStates]

lemma risk_distantMet_expand (af : ℝ) :
    ∀ t, adjustRiskRow af (baseTransitionProbs .distantMet) .distantMet t =
      if t = .distantMet then max 0.97 (0.98 - 0.98 * 0.02 * af)
      else if t = .death then
        baseTransitionProbs .distantMet t +
          (0.98 - max 0.97 (0.98 - 0.98 * 0.02 * af)) *
            (baseTransitionProbs .distantMet t / 0.01)
      else baseTransitionProbs .distantMet t := by
  intro t
  cases t <;> norm_num [adjustRiskRow, baseTransitionProbs, minStayProb, worseStates]

lemma risk_ned_sum (af : ℝ) :
    rowSum (adjustRiskRow af (baseTransitionProbs .ned) .ned) = 1 := by
  rw [rowSum_apply]
  simp only [risk_ned_expand af]
  simp [baseTransitionProbs]
  ring_nf

lemma risk_ned_nonneg (af : ℝ) (h0 : 0 ≤ af) (t : State) :
    0 ≤ adjustRiskRow af (baseTransitionProbs .ned) .ned t := by
  have h1 : (0.995 : ℝ) ≤ max 0.995 (0.997 - 0.997 * 0.02 * af) := le_max_left _ _
  have h2 : max (0.995 : ℝ) (0.997 - 0.997 * 0.02 * af) ≤ 0.997 :=
    max_le (by norm_num) (by nlinarith)
  rw [risk_ned_expand af]
  cases t <;> simp [baseTransitionProbs] <;>
    first
      | (left; norm_num)
      | nlinarith [h1, h2]

lemma risk_ned_stay (af : ℝ) :
    adjustRiskRow af (baseTransitionProbs .ned) .ned .ned
      = max 0.995 (0.997 - 0.997 * 0.02 * af) := by
  rw [risk_ned_expand af]
  simp

lemma risk_localRec_id (af : ℝ) (h0 : 0 ≤ af) (t : State) :
    adjustRiskRow af (baseTransitionProbs .localRec) .localRec t =
      baseTransitionProbs .localRec t := by
  have hmax : max (0.93 : ℝ) (0.93 - 0.93 * 0.02 * af) = 0.93 :=
    max_eq_left (by nlinarith)
  rw [risk_localRec_expand af, hmax]
  cases t <;> simp [baseTransitionProbs] <;> norm_num

lemma risk_regionalRec_id (af : ℝ) (h0 : 0 ≤ af) (t : State) :
    adjustRiskRow af (baseTransitionProbs .regionalRec) .regionalRec t =
      baseTransitionProbs .regionalRec t := by
  have hmax : max (0.92 : ℝ) (0.92 - 0.92 * 0.02 * af) = 0.92 :=
    max_eq_left (by nlinarith)
  rw [risk_regionalRec_expand af, hmax]
  cases t <;> simp [baseTransitionProbs] <;> norm_num

lemma risk_distantMet_sum (af : ℝ) :
    rowSum (adjustRiskRow af (baseTransitionProbs .distantMet) .distantMet) = 1 := by
  rw [rowSum_apply]
  simp only [risk_distantMet_expand af]
  simp [baseTransitionProbs]
  ring_nf

lemma risk_distantMet_nonneg (af : ℝ) (h0 : 0 ≤ af) (t : State) :
    0 ≤ adjustRiskRow af (baseTransitionProbs .distantMet) .distantMet t := by
  have h1 : (0.97 : ℝ) ≤ max 0.97 (0.98 - 0.98 * 0.02 * af) := le_max_left _ _
  have h2 : max (0.97 : ℝ) (0.98 - 0.98 * 0.02 * af) ≤ 0.98 :=
    max_le (by norm_num) (by nlinarith)
  rw [risk_distantMet_expand af]
  cases t <;> simp [baseTransitionProbs] <;>
    first
      | (left; norm_num)
      | nlinarith [h1, h2]

/-! ## Rows of the risk-adjusted matrix -/

lemma adjustTrans_apply (st : String) (g n : ℤ) (s : State) :
    adjustTransitionProbabilities baseTransitionProbs st g n s =
      renormRow (if s = .death then baseTransitionProbs s
        else adjustRiskRow (adjustmentFactor (riskModifier st g n))
          (baseTransitionProbs s) s) := rfl

lemma adjustmentFactor_risk_nonneg (st : String) (g n : ℤ) :
    0 ≤ adjustmentFactor (riskModifier st g n) :=
  le_of_lt (adjustmentFactor_pos _ (riskModifier_ge st g n))

lemma adjustTrans_ned (st : String) (g n : ℤ) :
    adjustTransitionProbabilities baseTransitionProbs st g n .ned =
      adjustRiskRow (adjustmentFactor (riskModifier st g n))
        (baseTransitionProbs .ned) .ned := by
  rw [adjustTrans_apply, if_neg (by decide : ¬(State.ned = State.death))]
  exact renormRow_of_sum_one _ (risk_ned_sum _)

lemma adjustTrans_localRec (st : String) (g n : ℤ) :
    adjustTransitionProbabilities baseTransitionProbs st g n .localRec =
      baseTransitionProbs .localRec := by
  have hid : adjustRiskRow (adjustmentFactor (riskModifier st g n))
      (baseTransitionProbs .localRec) .localRec = baseTransitionProbs .localRec :=
    funext (risk_localRec_id _ (adjustmentFactor_risk_nonneg st g n))
  rw [adjustTrans_apply, if_neg (by decide : ¬(State.localRec = State.death)), hid]
  exact renormRow_of_sum_one _ (base_rowSum _)

lemma adjustTrans_regionalRec (st : String) (g n : ℤ) :
    adjustTransitionProbabilities baseTransitionProbs st g n .regionalRec =
      baseTransitionProbs .regionalRec := by
  have hid : adjustRiskRow (adjustmentFactor (riskModifier st g n))
      (baseTransitionProbs .regionalRec) .regionalRec = baseTransitionProbs .regionalRec :=
    funext (risk_regionalRec_id _ (adjustmentFactor_risk_nonneg st g n))
  rw [adjustTrans_apply, if_neg (by decide : ¬(State.regionalRec = State.death)), hid]
  exact renormRow_of_sum_one _ (base_rowSum _)

lemma adjustTrans_distantMet (st : String) (g n : ℤ) :
    adjustTransitionProbabilities baseTransitionProbs st g n .distantMet =
      adjustRiskRow (adjustmentFactor (riskModifier st g n))
        (baseTransitionProbs .distantMet) .distantMet := by
  rw [adjustTrans_apply, if_neg (by decide : ¬(State.distantMet = State.death))]
  exact renormRow_of_sum_one _ (risk_distantMet_sum _)

lemma adjustTrans_death (st : String) (g n : ℤ) :
    adjustTransitionProbabilities baseTransitionProbs st g n .death =
      baseTransitionProbs .death := by
  rw [adjustTrans_apply, if_pos rfl]
  exact renormRow_of_sum_one _ (base_rowSum _)

lemma adjustTrans_rowSum (st : String) (g n : ℤ) (s : State) :
    rowSum (adjustTransitionProbabilities baseTransitionProbs st g n s) = 1 := by
  cases s
  · rw [adjustTrans_ned]; exact risk_ned_sum _
  · rw [adjustTrans_localRec]; exact base_rowSum _
  · rw [adjustTrans_regionalRec]; exact base_rowSum _
  · rw [adjustTrans_distantMet]; exact risk_distantMet_sum _
  · rw [adjustTrans_death]; exact base_rowSum _

lemma adjustTrans_nonneg (st : String) (g n : ℤ) (s t : State) :
    0 ≤ adjustTransitionProbabilities baseTransitionProbs st g n s t := by
  cases s
  · rw [adjustTrans_ned]
    exact risk_ned_nonneg _ (adjustmentFactor_risk_nonneg st g n) t
  · rw [adjustTrans_localRec]; exact base_nonneg _ _
  · rw [adjustTrans_regionalRec]; exact base_nonneg _ _
  · rw [adjustTrans_distantMet]
    exact risk_distantMet_nonneg _ (adjustmentFactor_risk_nonneg st g n) t
  · rw [adjustTrans_death]; exact base_nonneg _ _

lemma adjustTrans_ned_ned (st : String) (g n : ℤ) :
    adjustTransitionProbabilities baseTransitionProbs st g n .ned .ned =
      max 0.995
        (0.997 - 0.997 * 0.02 * adjustmentFactor (riskModifier st g n)) := by
  rw [adjustTrans_ned]
  exact risk_ned_stay _

/-! ## Treatment-edited rows -/

lemma othersSum_nonneg (row : State → ℝ) (hn : ∀ t, 0 ≤ row t) (s : State) :
    0 ≤ othersSum row s := by
  cases s <;>
    simp only [othersSum_ned, othersSum_localRec, othersSum_regionalRec,
      othersSum_distantMet, othersSum_death] <;>
    linarith [hn .ned, hn .localRec, hn .regionalRec, hn .distantMet, hn .death]

lemma rowSum_split (row : State → ℝ) (s : State) :
    rowSum row = row s + othersSum row s := by
  cases s <;>
    simp only [rowSum_apply, othersSum_ned, othersSum_localRec,
      othersSum_regionalRec, othersSum_distantMet, othersSum_death] <;>
    ring

lemma surgeryNedRow_expand (row : State → ℝ) :
    ∀ t, surgeryNedRow row t =
      if t = .localRec then row .localRec - row .localRec * 0.9
      else if t = .ned then row .ned + row .localRec * 0.9
      else row t := by
  intro t
  cases t <;> simp [surgeryNedRow]

lemma surgeryNedRow_sum (row : State → ℝ) :
    rowSum (surgeryNedRow row) = rowSum row := by
  rw [rowSum_apply, rowSum_apply]
  simp only [surgeryNedRow_expand]
  simp
  try ring

lemma surgeryNedRow_nonneg (row : State → ℝ) (hn : ∀ t, 0 ≤ row t) (t : State) :
    0 ≤ surgeryNedRow row t := by
  rw [surgeryNedRow_expand]
  cases t <;> simp <;>
    nlinarith [hn .ned, hn .localRec, hn .regionalRec, hn .distantMet, hn .death]

lemma surgeryLocalRow_expand (row : State → ℝ) :
    ∀ t, surgeryLocalRow row t =
      if t = .ned then 0.7
      else if othersSum row .ned > 0 then row t / othersSum row .ned * 0.3
      else row t := by
  intro t
  cases t <;> simp [surgeryLocalRow]

lemma surgeryLocalRow_nonneg (row : State → ℝ) (hn : ∀ t, 0 ≤ row t)
    (t : State) : 0 ≤ surgeryLocalRow row t := by
  rw [surgeryLocalRow_expand]
  by_cases hc : othersSum row .ned > 0
  · cases t <;> simp [hc] <;>
      first
        | exact div_nonneg (hn _) (le_of_lt hc)
        | exact mul_nonneg (div_nonneg (hn _) (le_of_lt hc)) (by norm_num)
        | exact hn _
        | norm_num
  · cases t <;> simp [hc] <;>
      first
        | exact hn _
        | norm_num

lemma surgeryLocalRow_sum_pos (row : State → ℝ) (hn : ∀ t, 0 ≤ row t) :
    0 < rowSum (surgeryLocalRow row) := by
  have h1 : (0.7 : ℝ) ≤ surgeryLocalRow row .ned := by
    rw [surgeryLocalRow_expand]
    simp
  have h2 := surgeryLocalRow_nonneg row hn
  rw [rowSum_apply]
  linarith [h2 .localRec, h2 .regionalRec, h2 .distantMet, h2 .death]

lemma surgeryLocalRow_sum_one (row : State → ℝ) (hr : rowSum row = 1)
    (hn : ∀ t, 0 ≤ row t) (hned : row .ned < 1) :
    rowSum (surgeryLocalRow row) = 1 := by
  have hpos : 0 < othersSum row .ned := by
    have := rowSum_split row .ned
    linarith
  have hval : othersSum row .ned = 1 - row .ned := by
    have := rowSum_split row .ned
    linarith
  rw [rowSum_apply]
  simp only [surgeryLocalRow_expand]
  simp [hpos]
  have hne : othersSum row .ned ≠ 0 := ne_of_gt hpos
  field_simp
  linarith [hval, othersSum_ned row]

lemma othersSum_update_scale (row : State → ℝ) (s : State) (X k : ℝ) :
    othersSum (fun t => if t = s then X else row t * k) s =
      k * othersSum row s := by
  cases s <;>
    simp [othersSum_ned, othersSum_localRec, othersSum_regionalRec,
      othersSum_distantMet, othersSum_death] <;>
    ring

lemma othersSum_update (row : State → ℝ) (s : State) (X : ℝ) :
    othersSum (fun t => if t = s then X else row t) s = othersSum row s := by
  cases s <;>
    simp [othersSum_ned, othersSum_localRec, othersSum_regionalRec,
      othersSum_distantMet, othersSum_death]

lemma rowSum_update_split (row' : State → ℝ) (s : State) :
    rowSum row' = row' s + othersSum row' s := rowSum_split row' s

lemma radiationNedRow_expand (row : State → ℝ) :
    ∀ t, radiationNedRow row t =
      if t = .localRec then row .localRec - row .localRec * 0.85
      else if t = .ned then row .ned + row .localRec * 0.85
      else row t := by
  intro t
  cases t <;> simp [radiationNedRow]

lemma radiationNedRow_sum (row : State → ℝ) :
    rowSum (radiationNedRow row) = rowSum row := by
  rw [rowSum_apply, rowSum_apply]
  simp only [radiationNedRow_expand]
  simp
  try ring

lemma radiationNedRow_nonneg (row : State → ℝ) (hn : ∀ t, 0 ≤ row t)
    (t : State) : 0 ≤ radiationNedRow row t := by
  rw [radiationNedRow_expand]
  cases t <;> simp <;>
    nlinarith [hn .ned, hn .localRec, hn .regionalRec, hn .distantMet, hn .death]

lemma radiationLocalRow_sum_one (row : State → ℝ) (hr : rowSum row = 1)
    (hn : ∀ t, 0 ≤ row t) : rowSum (radiationLocalRow row) = 1 := by
  unfold radiationLocalRow
  by_cases hc : 0.15 - row .ned > 0
  · rw [if_pos hc]
    have hval : othersSum row .ned = 1 - row .ned := by
      have := rowSum_split row .ned
      linarith
    have hpos : 0 < othersSum row .ned := by linarith
    have hrow : (fun t => if t = State.ned then (0.15 : ℝ)
        else row t * ((1 - 0.15) / othersSum row .ned)) =
        fun t => if t = State.ned then (0.15 : ℝ)
          else row t * ((1 - 0.15) / othersSum row .ned) := rfl
    rw [rowSum_split _ .ned, othersSum_update_scale]
    simp only [if_pos rfl]
    rw [div_mul_eq_mul_div, mul_comm]
    rw [mul_div_assoc, div_self (ne_of_gt hpos)]
    norm_num
  · rw [if_neg hc]
    exact hr

lemma radiationLocalRow_nonneg (row : State → ℝ) (hr : rowSum row = 1)
    (hn : ∀ t, 0 ≤ row t) (t : State) : 0 ≤ radiationLocalRow row t := by
  unfold radiationLocalRow
  by_cases hc : 0.15 - row .ned > 0
  · rw [if_pos hc]
    have hval : othersSum row .ned = 1 - row .ned := by
      have := rowSum_split row .ned
      linarith
    have hpos : 0 < othersSum row .ned := by linarith
    by_cases ht : t = .ned
    · rw [ht, if_pos rfl]
      norm_num
    · rw [if_neg ht]
      exact mul_nonneg (hn t) (div_nonneg (by norm_num) (le_of_lt hpos))
  · rw [if_neg hc]
    exact hn t

lemma stayBoostRow_def (cap frac : ℝ) (row : State → ℝ) (s t : State) :
    stayBoostRow cap frac row s t =
      if t = s then row s + min cap ((1 - row s) * frac)
      else if othersSum row s > 0 then
        row t * ((1 - min cap ((1 - row s) * frac)) / othersSum row s)
      else row t := rfl

lemma stayBoost_inc_nonneg (cap frac : ℝ) (row : State → ℝ) (s : State)
    (hcap : 0 < cap) (hfrac : 0 ≤ frac) (hs1 : row s ≤ 1) :
    0 ≤ min cap ((1 - row s) * frac) :=
  le_min (le_of_lt hcap) (mul_nonneg (by linarith) hfrac)

lemma stayBoost_stay_le_one (row : State → ℝ) (hr : rowSum row = 1)
    (hn : ∀ t, 0 ≤ row t) (s : State) : row s ≤ 1 := by
  have := rowSum_split row s
  have := othersSum_nonneg row hn s
  linarith

lemma stayBoostRow_nonneg (cap frac : ℝ) (row : State → ℝ) (s : State)
    (hcap : 0 < cap) (hcap1 : cap ≤ 1) (hfrac : 0 ≤ frac)
    (hr : rowSum row = 1) (hn : ∀ t, 0 ≤ row t) (t : State) :
    0 ≤ stayBoostRow cap frac row s t := by
  have hs1 := stayBoost_stay_le_one row hr hn s
  have hinc0 := stayBoost_inc_nonneg cap frac row s hcap hfrac hs1
  have hinc1 : min cap ((1 - row s) * frac) ≤ cap := min_le_left _ _
  rw [stayBoostRow_def]
  by_cases ht : t = s
  · rw [if_pos ht]
    linarith [hn s]
  · rw [if_neg ht]
    by_cases hto : othersSum row s > 0
    · rw [if_pos hto]
      exact mul_nonneg (hn t) (div_nonneg (by linarith) (le_of_lt hto))
    · rw [if_neg hto]
      exact hn t

lemma stayBoostRow_sum (cap frac : ℝ) (row : State → ℝ) (s : State)
    (hcap : 0 < cap) (hfrac : 0 ≤ frac)
    (hr : rowSum row = 1) (hn : ∀ t, 0 ≤ row t) :
    rowSum (stayBoostRow cap frac row s) = 1 + row s ∨
      (rowSum (stayBoostRow cap frac row s) = 1 ∧ othersSum row s = 0) := by
  have hs1 := stayBoost_stay_le_one row hr hn s
  by_cases hto : othersSum row s > 0
  · left
    have hrow : stayBoostRow cap frac row s = fun t =>
        if t = s then row s + min cap ((1 - row s) * frac)
        else row t * ((1 - min cap ((1 - row s) * frac)) / othersSum row s) := by
      funext t
      rw [stayBoostRow_def]
      by_cases ht : t = s
      · rw [if_pos ht, if_pos ht]
      · rw [if_neg ht, if_neg ht, if_pos hto]
    rw [hrow, rowSum_split _ s, othersSum_update_scale]
    rw [if_pos (rfl : s = s), div_mul_cancel₀ _ (ne_of_gt hto)]
    ring
  · right
    have hzero : othersSum row s = 0 :=
      le_antisymm (not_lt.mp hto) (othersSum_nonneg row hn s)
    have hstay : row s = 1 := by
      have := rowSum_split row s
      linarith
    have hinc : min cap ((1 - row s) * frac) = 0 := by
      rw [hstay]
      simp
      exact le_of_lt hcap
    have hrow : stayBoostRow cap frac row s = fun t =>
        if t = s then row s + min cap ((1 - row s) * frac) else row t := by
      funext t
      rw [stayBoostRow_def]
      by_cases ht : t = s
      · rw [if_pos ht, if_pos ht]
      · rw [if_neg ht, if_neg ht, if_neg hto]
    refine ⟨?_, hzero⟩
    rw [hrow, rowSum_split _ s, othersSum_update]
    rw [if_pos (rfl : s = s), hinc, hzero, hstay]
    norm_num

lemma adjustTreat_apply (M : TMatrix) (plan : TreatmentPlan) (stp : String)
    (s : State) :
    adjustForTreatment M plan stp s = renormRow (
      if s = .death then M s
      else if plan.treatmentType.getD "unknown" = "surgery" then
        if s = .ned then surgeryNedRow (M .ned)
        else if s = .localRec then surgeryLocalRow (M .localRec)
        else M s
      else if plan.treatmentType.getD "unknown" = "radiation" then
        if s = .ned then radiationNedRow (M .ned)
        else if s = .localRec then radiationLocalRow (M .localRec)
        else M s
      else if plan.treatmentType.getD "unknown" = "chemotherapy" then
        stayBoostRow 0.05 0.3 (M s) s
      else if plan.treatmentType.getD "unknown" = "hormone_therapy" ∨
          plan.treatmentType.getD "unknown" = "targeted_therapy" then
        stayBoostRow 0.03 0.2 (M s) s
      else M s) := rfl

lemma treatPreRow_ok (M : TMatrix) (hM1 : ∀ s, rowSum (M s) = 1)
    (hM0 : ∀ s t, 0 ≤ M s t) (plan : TreatmentPlan) (stp : String) (s : State) :
    (∀ t, 0 ≤ (if s = .death then M s
      else if plan.treatmentType.getD "unknown" = "surgery" then
        if s = .ned then surgeryNedRow (M .ned)
        else if s = .localRec then surgeryLocalRow (M .localRec)
        else M s
      else if plan.treatmentType.getD "unknown" = "radiation" then
        if s = .ned then radiationNedRow (M .ned)
        else if s = .localRec then radiationLocalRow (M .localRec)
        else M s
      else if plan.treatmentType.getD "unknown" = "chemotherapy" then
        stayBoostRow 0.05 0.3 (M s) s
      else if plan.treatmentType.getD "unknown" = "hormone_therapy" ∨
          plan.treatmentType.getD "unknown" = "targeted_therapy" then
        stayBoostRow 0.03 0.2 (M s) s
      else M s) t) ∧
    0 < rowSum (if s = .death then M s
      else if plan.treatmentType.getD "unknown" = "surgery" then
        if s = .ned then surgeryNedRow (M .ned)
        else if s = .localRec then surgeryLocalRow (M .localRec)
        else M s
      else if plan.treatmentType.getD "unknown" = "radiation" then
        if s = .ned then radiationNedRow (M .ned)
        else if s = .localRec then radiationLocalRow (M .localRec)
        else M s
      else if plan.treatmentType.getD "unknown" = "chemotherapy" then
        stayBoostRow 0.05 0.3 (M s) s
      else if plan.treatmentType.getD "unknown" = "hormone_therapy" ∨
          plan.treatmentType.getD "unknown" = "targeted_therapy" then
        stayBoostRow 0.03 0.2 (M s) s
      else M s) := by
  have hrowpos : ∀ s', (0 : ℝ) < rowSum (M s') := by
    intro s'
    rw [hM1 s']
    norm_num
  split_ifs with hd h1 h2 h3 h4 h5 h6 h7 h8
  · exact ⟨fun t => hM0 s t, hrowpos s⟩
  · refine ⟨surgeryNedRow_nonneg (M .ned) (hM0 .ned), ?_⟩
    rw [surgeryNedRow_sum, hM1]
    norm_num
  · exact ⟨surgeryLocalRow_nonneg (M .localRec) (hM0 .localRec),
      surgeryLocalRow_sum_pos (M .localRec) (hM0 .localRec)⟩
  · exact ⟨fun t => hM0 s t, hrowpos s⟩
  · refine ⟨radiationNedRow_nonneg (M .ned) (hM0 .ned), ?_⟩
    rw [radiationNedRow_sum, hM1]
    norm_num
  · refine ⟨radiationLocalRow_nonneg (M .localRec) (hM1 .localRec) (hM0 .localRec), ?_⟩
    rw [radiationLocalRow_sum_one (M .localRec) (hM1 .localRec) (hM0 .localRec)]
    norm_num
  · exact ⟨fun t => hM0 s t, hrowpos s⟩
  · refine ⟨stayBoostRow_nonneg 0.05 0.3 (M s) s (by norm_num) (by norm_num)
      (by norm_num) (hM1 s) (hM0 s), ?_⟩
    rcases stayBoostRow_sum 0.05 0.3 (M s) s (by norm_num) (by norm_num)
        (hM1 s) (hM0 s) with h | h
    · rw [h]
      linarith [hM0 s s]
    · rw [h.1]
      norm_num
  · refine ⟨stayBoostRow_nonneg 0.03 0.2 (M s) s (by norm_num) (by norm_num)
      (by norm_num) (hM1 s) (hM0 s), ?_⟩
    rcases stayBoostRow_sum 0.03 0.2 (M s) s (by norm_num) (by norm_num)
        (hM1 s) (hM0 s) with h | h
    · rw [h]
      linarith [hM0 s s]
    · rw [h.1]
      norm_num
  · exact ⟨fun t => hM0 s t, hrowpos s⟩

lemma adjustTreat_ok (M : TMatrix) (hM1 : ∀ s, rowSum (M s) = 1)
    (hM0 : ∀ s t, 0 ≤ M s t) (plan : TreatmentPlan) (stp : String) (s : State) :
    |rowSum (adjustForTreatment M plan stp s) - 1| ≤ 1e-10 ∧
      ∀ t, 0 ≤ adjustForTreatment M plan stp s t := by
  rw [adjustTreat_apply M plan stp s]
  have h := treatPreRow_ok M hM1 hM0 plan stp s
  exact renormRow_close _ h.1 h.2

lemma adjustTreat_death (M : TMatrix) (plan : TreatmentPlan) (stp : String)
    (h : rowSum (M .death) = 1) :
    adjustForTreatment M plan stp .death = M .death := by
  rw [adjustTreat_apply, if_pos rfl]
  exact renormRow_of_sum_one _ h

/-! ## Theorems -/

/-- C5: the base transition matrix built inside every markov-mode
`simulate_progression` call equals, entry by entry, the canonical literal
matrix stated in the specification. -/
theorem C5_base_matrix_is_canonical :
    ∀ s t : State, baseTransitionProbs s t = specCanonicalMatrix s t := by
  intro s t
  cases s <;> cases t <;> norm_num [baseTransitionProbs, specCanonicalMatrix]

/-- C8: for every patient input and months, the exponential mode returns
exactly the five heuristic values derived from the staging survival
probability — NED = max(0.78, p − 0.08), Local = min(0.05, (1 − p)·0.3),
Regional = min(0.03, (1 − p)·0.2), Distant = min(0.05, (1 − p)·0.3),
Death = min(0.15, 1 − p) — as-is, with no renormalization. -/
theorem C8_exponential_formulas (patientData : PatientData) (months : ℕ) :
    simulateExponential patientData months .ned =
        max 0.78 (calculateSurvivalProbability patientData months - 0.08) ∧
    simulateExponential patientData months .localRec =
        min 0.05 ((1 - calculateSurvivalProbability patientData months) * 0.3) ∧
    simulateExponential patientData months .regionalRec =
        min 0.03 ((1 - calculateSurvivalProbability patientData months) * 0.2) ∧
    simulateExponential patientData months .distantMet =
        min 0.05 ((1 - calculateSurvivalProbability patientData months) * 0.3) ∧
    simulateExponential patientData months .death =
        min 0.15 (1 - calculateSurvivalProbability patientData months) :=
  ⟨rfl, rfl, rfl, rfl, rfl⟩

/-- C10: the exponential-mode result ignores the treatment plan and the
number of simulations: two calls whose patient records differ only in
`treatment_plan` and whose `n_simulations` differ return identical
mappings. -/
theorem C10_exponential_ignores_treatment_and_nsims (sampler : Sampler)
    (age tumorSize : Option ℚ) (grade nodesPositive : Option ℤ)
    (erStatus prStatus her2Status molecularSubtype : Option String)
    (treatmentPlan₁ treatmentPlan₂ : Option TreatmentPlan)
    (months nSimulations₁ nSimulations₂ : ℕ) :
    simulateProgression sampler "exponential"
      ⟨age, tumorSize, grade, nodesPositive, erStatus, prStatus, her2Status,
        molecularSubtype, treatmentPlan₁⟩ months nSimulations₁ =
    simulateProgression sampler "exponential"
      ⟨age, tumorSize, grade, nodesPositive, erStatus, prStatus, her2Status,
        molecularSubtype, treatmentPlan₂⟩ months nSimulations₂ :=
  rfl

/-- C2: every matrix the core can produce — the base matrix, the
risk-adjusted matrix for any subtype/grade/nodes, the treatment-adjusted
matrix for any treatment plan and subtype, and the risk-then-treatment
combination — is row-stochastic within `1e-9` with all entries ≥ 0. -/
theorem C2_row_stochastic_invariant :
    rowStochasticWithin baseTransitionProbs 1e-9 ∧
    (∀ st : String, ∀ g n : ℤ,
      rowStochasticWithin (adjustTransitionProbabilities baseTransitionProbs st g n) 1e-9) ∧
    (∀ plan : TreatmentPlan, ∀ stp : String,
      rowStochasticWithin (adjustForTreatment baseTransitionProbs plan stp) 1e-9) ∧
    (∀ st : String, ∀ g n : ℤ, ∀ plan : TreatmentPlan, ∀ stp : String,
      rowStochasticWithin
        (adjustForTreatment (adjustTransitionProbabilities baseTransitionProbs st g n)
          plan stp) 1e-9) := by
  refine ⟨fun s => ⟨?_, fun t => base_nonneg s t⟩,
    fun st g n s => ⟨?_, fun t => adjustTrans_nonneg st g n s t⟩,
    fun plan stp s => ?_, fun st g n plan stp s => ?_⟩
  · rw [base_rowSum]
    norm_num
  · rw [adjustTrans_rowSum]
    norm_num
  · have h := adjustTreat_ok baseTransitionProbs base_rowSum base_nonneg plan stp s
    exact ⟨by linarith [h.1, abs_nonneg (rowSum (adjustForTreatment baseTransitionProbs plan stp s) - 1)], h.2⟩
  · have h := adjustTreat_ok (adjustTransitionProbabilities baseTransitionProbs st g n)
      (adjustTrans_rowSum st g n) (adjustTrans_nonneg st g n) plan stp s
    exact ⟨by linarith [h.1,
      abs_nonneg (rowSum (adjustForTreatment
        (adjustTransitionProbabilities baseTransitionProbs st g n) plan stp s) - 1)], h.2⟩

/-- C4: the Death row of every combination of risk adjustment and
treatment adjustment applied to the base matrix is exactly
`{Death: 1.0, all other states: 0.0}`. -/
theorem C4_death_row_absorbing (st : String) (g n : ℤ)
    (plan : TreatmentPlan) (stp : String) (t : State) :
    adjustForTreatment (adjustTransitionProbabilities baseTransitionProbs st g n)
        plan stp .death t = (if t = .death then 1 else 0) ∧
    adjustTransitionProbabilities baseTransitionProbs st g n .death t =
        (if t = .death then 1 else 0) ∧
    adjustForTreatment baseTransitionProbs plan stp .death t =
        (if t = .death then 1 else 0) ∧
    baseTransitionProbs .death t = (if t = .death then 1 else 0) := by
  have hbase : ∀ u, baseTransitionProbs .death u = (if u = .death then 1 else 0) := by
    intro u
    cases u <;> simp [baseTransitionProbs] <;> norm_num
  have hR : adjustTransitionProbabilities baseTransitionProbs st g n .death =
      baseTransitionProbs .death := adjustTrans_death st g n
  have hTR : adjustForTreatment (adjustTransitionProbabilities baseTransitionProbs st g n)
      plan stp .death = baseTransitionProbs .death := by
    rw [adjustTreat_death _ plan stp (adjustTrans_rowSum st g n .death), hR]
  have hTB : adjustForTreatment baseTransitionProbs plan stp .death =
      baseTransitionProbs .death :=
    adjustTreat_death _ plan stp (base_rowSum .death)
  exact ⟨by rw [hTR]; exact hbase t, by rw [hR]; exact hbase t,
    by rw [hTB]; exact hbase t, hbase t⟩

/-- C9: risk adjustment is the identity on the Local Recurrence and
Regional Recurrence rows of the base matrix, for every molecular subtype,
grade and nodes_positive: their stay probabilities already sit at the
minimum stay floors (0.93 and 0.92), so no probability is freed. -/
theorem C9_risk_identity_on_local_and_regional (st : String) (g n : ℤ)
    (t : State) :
    adjustTransitionProbabilities baseTransitionProbs st g n .localRec t =
        baseTransitionProbs .localRec t ∧
    adjustTransitionProbabilities baseTransitionProbs st g n .regionalRec t =
        baseTransitionProbs .regionalRec t :=
  ⟨congrFun (adjustTrans_localRec st g n) t,
    congrFun (adjustTrans_regionalRec st g n) t⟩

/-- C6: risk adjustment is monotone in risk for the NED stay probability:
with the same subtype and nodes, the grade whose risk modifier is larger
yields a risk-adjusted `P[NED][NED]` that is at most the other's. -/
theorem C6_risk_monotonicity (st : String) (n g₁ g₂ : ℤ)
    (h : riskModifier st g₁ n ≤ riskModifier st g₂ n) :
    adjustTransitionProbabilities baseTransitionProbs st g₂ n .ned .ned ≤
      adjustTransitionProbabilities baseTransitionProbs st g₁ n .ned .ned := by
  rw [adjustTrans_ned_ned, adjustTrans_ned_ned]
  have hmono := adjustmentFactor_mono _ _ (riskModifier_ge st g₁ n) h
  exact max_le_max le_rfl (by nlinarith)

/-- C6 witness: grade 1 versus grade 3 at subtype "unknown", zero nodes. -/
theorem C6_risk_monotonicity_witness :
    riskModifier "unknown" 1 0 ≤ riskModifier "unknown" 3 0 ∧
    adjustTransitionProbabilities baseTransitionProbs "unknown" 3 0 .ned .ned ≤
      adjustTransitionProbabilities baseTransitionProbs "unknown" 1 0 .ned .ned :=
  ⟨by
    norm_num [riskModifier,
      (by decide : ¬("unknown" = "Triple Negative")),
      (by decide : ¬("unknown" = "HER2 Enriched")),
      (by decide : ¬("unknown" = "Luminal B HER2+")),
      (by decide : ¬("unknown" = "Luminal B HER2-"))],
   C6_risk_monotonicity "unknown" 0 1 3 (by
    norm_num [riskModifier,
      (by decide : ¬("unknown" = "Triple Negative")),
      (by decide : ¬("unknown" = "HER2 Enriched")),
      (by decide : ¬("unknown" = "Luminal B HER2+")),
      (by decide : ¬("unknown" = "Luminal B HER2-"))])⟩

/-- C7 counterexample: the claim "the surgery edit never decreases
`P[Local][NED]` on any row-stochastic matrix" is false: on a
row-stochastic matrix whose Local row already sends 0.8 to NED, the edit
sets that entry to 0.7, a strict decrease. -/
theorem C7_counterexample :
    (∀ s, rowSum (surgeryCounterexampleMatrix s) = 1) ∧
    (∀ s t, 0 ≤ surgeryCounterexampleMatrix s t) ∧
    adjustForTreatment surgeryCounterexampleMatrix ⟨some "surgery"⟩ "unknown"
        .localRec .ned <
      surgeryCounterexampleMatrix .localRec .ned := by
  have hsum : ∀ s, rowSum (surgeryCounterexampleMatrix s) = 1 := by
    intro s
    cases s <;> (rw [rowSum_apply]; norm_num [surgeryCounterexampleMatrix, baseTransitionProbs])
  have hnn : ∀ s t, 0 ≤ surgeryCounterexampleMatrix s t := by
    intro s t
    cases s <;> cases t <;> norm_num [surgeryCounterexampleMatrix, baseTransitionProbs]
  refine ⟨hsum, hnn, ?_⟩
  rw [adjustTreat_apply, if_neg (by decide : ¬(State.localRec = State.death)),
    if_pos (by decide : (TreatmentPlan.mk (some "surgery")).treatmentType.getD "unknown" = "surgery"),
    if_neg (by decide : ¬(State.localRec = State.ned)), if_pos rfl]
  have hned : surgeryCounterexampleMatrix .localRec .ned < 1 := by
    norm_num [surgeryCounterexampleMatrix]
  rw [renormRow_of_sum_one _
    (surgeryLocalRow_sum_one _ (hsum .localRec) (fun t => hnn .localRec t) hned)]
  rw [surgeryLocalRow_expand, if_pos rfl]
  norm_num [surgeryCounterexampleMatrix]

/-- C7 amended: on every row-stochastic matrix the surgery edit never
decreases `P[NED][NED]`; and it never decreases `P[Local][NED]` provided
the pre-edit `P[Local][NED]` is at most 0.7 (the edit sets it to exactly
0.7). -/
theorem C7_surgery_amended (M : TMatrix) (hM1 : ∀ s, rowSum (M s) = 1)
    (hM0 : ∀ s t, 0 ≤ M s t) (stp : String) :
    M .ned .ned ≤ adjustForTreatment M ⟨some "surgery"⟩ stp .ned .ned ∧
    (M .localRec .ned ≤ 0.7 →
      M .localRec .ned ≤ adjustForTreatment M ⟨some "surgery"⟩ stp .localRec .ned) := by
  constructor
  · rw [adjustTreat_apply, if_neg (by decide : ¬(State.ned = State.death)),
      if_pos (by decide : (TreatmentPlan.mk (some "surgery")).treatmentType.getD "unknown" = "surgery"),
      if_pos rfl]
    have hsum : rowSum (surgeryNedRow (M .ned)) = 1 := by
      rw [surgeryNedRow_sum]
      exact hM1 .ned
    rw [renormRow_of_sum_one _ hsum, surgeryNedRow_expand,
      if_neg (by decide : ¬(State.ned = State.localRec)), if_pos rfl]
    linarith [hM0 .ned .localRec]
  · intro hle
    rw [adjustTreat_apply, if_neg (by decide : ¬(State.localRec = State.death)),
      if_pos (by decide : (TreatmentPlan.mk (some "surgery")).treatmentType.getD "unknown" = "surgery"),
      if_neg (by decide : ¬(State.localRec = State.ned)), if_pos rfl]
    have hned : M .localRec .ned < 1 := lt_of_le_of_lt hle (by norm_num)
    rw [renormRow_of_sum_one _
      (surgeryLocalRow_sum_one _ (hM1 .localRec) (fun t => hM0 .localRec t) hned)]
    rw [surgeryLocalRow_expand, if_pos rfl]
    exact hle

/-- C7 witness: the amended statement applied to the base matrix. -/
theorem C7_surgery_amended_witness :
    baseTransitionProbs .ned .ned ≤
        adjustForTreatment baseTransitionProbs ⟨some "surgery"⟩ "unknown" .ned .ned ∧
    (baseTransitionProbs .localRec .ned ≤ 0.7 →
      baseTransitionProbs .localRec .ned ≤
        adjustForTreatment baseTransitionProbs ⟨some "surgery"⟩ "unknown" .localRec .ned) :=
  C7_surgery_amended baseTransitionProbs base_rowSum base_nonneg "unknown"

/-- C1 evaluation at the failing input: applying the chemotherapy edit
(including its final row renormalization) to the base matrix STRICTLY
DECREASES the NED self-transition probability — from 0.997 to
0.9979/1.997 ≈ 0.4997 — because the edit rescales the non-stay entries
by `(1 - stay_increase)/total_others`, inflating the row to a total of
`1 + stay` which the renormalization then divides out. -/
theorem C1_chemotherapy_decreases_ned_stay :
    adjustForTreatment baseTransitionProbs ⟨some "chemotherapy"⟩ "unknown" .ned .ned
        = 0.9979 / 1.997 ∧
    adjustForTreatment baseTransitionProbs ⟨some "chemotherapy"⟩ "unknown" .ned .ned
        < baseTransitionProbs .ned .ned := by
  have hos : othersSum (baseTransitionProbs .ned) .ned = 0.003 := by
    rw [othersSum_ned]
    norm_num [baseTransitionProbs]
  have hpos : othersSum (baseTransitionProbs .ned) .ned > 0 := by
    rw [hos]
    norm_num
  have hmin : min (0.05 : ℝ) ((1 - baseTransitionProbs .ned .ned) * 0.3) = 0.0009 := by
    rw [show baseTransitionProbs .ned .ned = (0.997 : ℝ) from rfl,
      min_eq_right (by norm_num)]
    norm_num
  have hrow : ∀ t, stayBoostRow 0.05 0.3 (baseTransitionProbs .ned) .ned t =
      if t = .ned then 0.9979
      else baseTransitionProbs .ned t * (0.9991 / 0.003) := by
    intro t
    rw [stayBoostRow_def]
    by_cases ht : t = .ned
    · rw [if_pos ht, if_pos ht, hmin,
        show baseTransitionProbs .ned .ned = (0.997 : ℝ) from rfl]
      norm_num
    · rw [if_neg ht, if_neg ht, if_pos hpos, hmin, hos]
      norm_num
  have hsum : rowSum (stayBoostRow 0.05 0.3 (baseTransitionProbs .ned) .ned) = 1.997 := by
    rw [rowSum_apply]
    simp only [hrow]
    simp [baseTransitionProbs]
    norm_num
  have hval : adjustForTreatment baseTransitionProbs ⟨some "chemotherapy"⟩ "unknown"
      .ned .ned = 0.9979 / 1.997 := by
    rw [adjustTreat_apply, if_neg (by decide : ¬(State.ned = State.death)),
      if_neg (by decide :
        ¬((TreatmentPlan.mk (some "chemotherapy")).treatmentType.getD "unknown" = "surgery")),
      if_neg (by decide :
        ¬((TreatmentPlan.mk (some "chemotherapy")).treatmentType.getD "unknown" = "radiation")),
      if_pos (by decide :
        (TreatmentPlan.mk (some "chemotherapy")).treatmentType.getD "unknown" = "chemotherapy")]
    unfold renormRow
    rw [hsum, if_pos (show |(1.997 : ℝ) - 1| > 1e-10 by
        rw [show (1.997 : ℝ) - 1 = 0.997 by norm_num, abs_of_pos (by norm_num)]
        norm_num),
      hrow, if_pos rfl]
  refine ⟨hval, ?_⟩
  rw [hval, show baseTransitionProbs .ned .ned = (0.997 : ℝ) from rfl]
  norm_num

/-- C3: requesting a simulation mode that is neither "markov" nor
"exponential" fails with the configuration error
`Unknown simulation type: ...` surfaced to the caller, for every patient
input, months and number of simulations. -/
theorem C3_unknown_mode_errors (sampler : Sampler) (simulationType : String)
    (patientData : PatientData) (months nSimulations : ℕ)
    (hm : simulationType ≠ "markov") (he : simulationType ≠ "exponential") :
    simulateProgression sampler simulationType patientData months nSimulations =
      .error ("Unknown simulation type: " ++ simulationType) := by
  simp [simulateProgression, hm, he]

/-- C3 witness: the mode "gompertz" is rejected with the surfaced error. -/
theorem C3_unknown_mode_errors_witness :
    ("gompertz" : String) ≠ "markov" ∧ ("gompertz" : String) ≠ "exponential" ∧
    simulateProgression (fun _ _ _ => .ned) "gompertz"
      ⟨none, none, none, none, none, none, none, none, none⟩ 60 100 =
      .error ("Unknown simulation type: " ++ "gompertz") :=
  ⟨by decide, by decide,
    C3_unknown_mode_errors (fun _ _ _ => .ned) "gompertz"
      ⟨none, none, none, none, none, none, none, none, none⟩ 60 100
      (by decide) (by decide)⟩

end HealthKali
